import Mathlib

/-!
Verification of the real-time collaborative synchronization engine of the
notehub backend.

The engine lives in three JavaScript sources:
* `src/utils/ot.js` — `generateOperation` (diff) and `applyOperation`;
* `src/unnamed/part_001` — the OT module used by the live socket server:
  `transformOperation`, `transformOperations`, `applyOperations`,
  `generateOperations` (the latter textually identical to
  `src/utils/ot.js`'s `generateOperation`);
* `src/unnamed/part_002` — an earlier OT iteration with its own
  `generateOperation` (prefix-only diff) and `transformOperation`
  (unclamped shifts);
* `src/server.js` (fourth variant, the socket.io server with history and
  cursors) — the `update`, `cursor-update` and `disconnect` handlers.

Strings are modelled as `List Char`.  JavaScript `String.prototype.slice`
and `Array.prototype.slice` clamp out-of-range indices and interpret
negative indices from the end; `jsIndex`/`jsSliceTo`/`jsSliceFrom` model
that exactly.  Positions and counts carried by operations are `Int`,
because the part_002 transform can drive them negative.
-/

/-- A single edit operation.  In the JS sources an operation is an object
holding `position` together with either an `insert` string or a `delete`
count (part_001 / utils/ot.js), or a `type` tag with `text`/`count`
(part_002); both encodings carry the same information, captured here as
one inductive. -/
inductive Op : Type
  | insert (position : Int) (text : List Char)
  | delete (position : Int) (count : Int)
  deriving DecidableEq, Repr

/-- The `position` field of an operation. -/
def Op.pos : Op → Int
  | .insert p _ => p
  | .delete p _ => p

/-- The deletion count of an operation; for an insert this is the length
of the inserted text (never negative). -/
def Op.cnt : Op → Int
  | .insert _ s => s.length
  | .delete _ c => c

/-- JS index resolution for `slice`: a negative index counts from the end
(clamped at 0), a non-negative index is clamped to the length. -/
def jsIndex (len : Nat) (i : Int) : Nat :=
  if i < 0 then ((len : Int) + i).toNat else min i.toNat len

/-- `l.slice(0, e)` in JS. -/
def jsSliceTo {α : Type} (l : List α) (e : Int) : List α :=
  l.take (jsIndex l.length e)

/-- `l.slice(s)` in JS. -/
def jsSliceFrom {α : Type} (l : List α) (s : Int) : List α :=
  l.drop (jsIndex l.length s)

/-- JS `<` on strings: lexicographic comparison by code unit, a proper
prefix being smaller. -/
def jsStrLt : List Char → List Char → Bool
  | [], [] => false
  | [], _ :: _ => true
  | _ :: _, [] => false
  | a :: as, b :: bs => if a < b then true else if b < a then false else jsStrLt as bs

/-- Length of the longest common prefix of two lists; this is exactly what
the `commonStart` scan loop of `generateOperation` computes. -/
def lcp : List Char → List Char → Nat
  | a :: as, b :: bs => if a = b then lcp as bs + 1 else 0
  | _, _ => 0

/-- The descending-position order used by the in-place sort
`ops.sort((a, b) => b.position - a.position)` in both apply functions. -/
def posDescOrder (a b : Op) : Prop := b.pos ≤ a.pos

instance : DecidableRel posDescOrder :=
  fun a b => inferInstanceAs (Decidable (b.pos ≤ a.pos))

instance : IsTotal Op posDescOrder :=
  ⟨fun a b => le_total b.pos a.pos⟩

instance : IsTrans Op posDescOrder :=
  ⟨fun _ _ _ hab hbc => le_trans hbc hab⟩

/-- The stable descending sort the JS engine performs (ECMAScript sort is
stable); `List.insertionSort` with this order places an element before the
first element of lower-or-equal position, preserving the original order of
equal positions exactly as a stable JS sort does. -/
def sortByPosDesc (ops : List Op) : List Op :=
  List.insertionSort posDescOrder ops

/-- `commonStart` of `generateOperation` in `src/utils/ot.js`: the forward
scan over both strings. -/
def OT.commonStart (oldStr newStr : List Char) : Nat := lcp oldStr newStr

/-- `commonEnd` of `generateOperation` in `src/utils/ot.js`: the backward
scan, bounded so it never overlaps the common prefix; equivalently the
longest common suffix of the two strings with their common prefix
removed. -/
def OT.commonEnd (oldStr newStr : List Char) : Nat :=
  lcp ((oldStr.drop (OT.commonStart oldStr newStr)).reverse)
      ((newStr.drop (OT.commonStart oldStr newStr)).reverse)

/-- `oldMiddle = oldStr.slice(commonStart, oldStr.length - commonEnd)`. -/
def OT.oldMiddle (oldStr newStr : List Char) : List Char :=
  (oldStr.take (oldStr.length - OT.commonEnd oldStr newStr)).drop
    (OT.commonStart oldStr newStr)

/-- `newMiddle = newStr.slice(commonStart, newStr.length - commonEnd)`. -/
def OT.newMiddle (oldStr newStr : List Char) : List Char :=
  (newStr.take (newStr.length - OT.commonEnd oldStr newStr)).drop
    (OT.commonStart oldStr newStr)

/-- `generateOperation` from `src/utils/ot.js` (lines 1–32): emit a delete
of the old middle and an insert of the new middle, both at the common
prefix boundary, skipping empty middles. -/
def OT.generateOperation (oldStr newStr : List Char) : List Op :=
  (if (OT.oldMiddle oldStr newStr).length > 0 then
    [Op.delete (OT.commonStart oldStr newStr) (OT.oldMiddle oldStr newStr).length]
  else []) ++
  (if (OT.newMiddle oldStr newStr).length > 0 then
    [Op.insert (OT.commonStart oldStr newStr) (OT.newMiddle oldStr newStr)]
  else [])

/-- One iteration of the apply loop in `src/utils/ot.js` `applyOperation`.
The JS guards are truthiness tests (`if (op.insert)` / `else if
(op.delete)`), so an empty insert text or a zero delete count leaves the
string untouched. -/
def OT.applyOne (result : List Char) (op : Op) : List Char :=
  match op with
  | .insert p text =>
      if text.length > 0 then jsSliceTo result p ++ text ++ jsSliceFrom result p
      else result
  | .delete p count =>
      if count ≠ 0 then jsSliceTo result p ++ jsSliceFrom result (p + count)
      else result

/-- `applyOperation` from `src/utils/ot.js` (lines 34–51).  The JS sorts
`ops` in place in descending position order and then folds over it; the
second component is the sorted array the caller's argument has been
mutated into. -/
def OT.applyOperation (str : List Char) (ops : List Op) : List Char × List Op :=
  let sorted := sortByPosDesc ops
  (sorted.foldl OT.applyOne str, sorted)

/-- `transformOperation` from `src/unnamed/part_001` (lines 17–45):
transform a single client operation against a single committed one.  All
shifts are clamped by `Math.min`, the same-position delete/delete case by
`Math.max(0, …)`, and the insert/insert tie at equal positions is broken
by JS string comparison of the inserted texts. -/
def OTv1.transformOperation (op1 op2 : Op) : Op :=
  match op1, op2 with
  | .insert p1 s1, .insert p2 s2 =>
      if p1 > p2 ∨ (p1 = p2 ∧ jsStrLt s2 s1) then .insert (p1 + s2.length) s1
      else .insert p1 s1
  | .insert p1 s1, .delete p2 c2 =>
      if p1 > p2 then .insert (p1 - min c2 (p1 - p2)) s1
      else .insert p1 s1
  | .delete p1 c1, .insert p2 s2 =>
      if p1 ≥ p2 then .delete (p1 + s2.length) c1
      else .delete p1 c1
  | .delete p1 c1, .delete p2 c2 =>
      if p1 > p2 then .delete (p1 - min c2 (p1 - p2)) c1
      else if p1 = p2 then .delete p1 (max 0 (c1 - c2))
      else .delete p1 c1

/-- `transformOperations` from `src/unnamed/part_001` (lines 53–61):
transform every client operation against every server operation, in
server-commit order. -/
def OTv1.transformOperations (clientOps serverOps : List Op) : List Op :=
  serverOps.foldl
    (fun transformedClientOps serverOp =>
      transformedClientOps.map (fun clientOp => OTv1.transformOperation clientOp serverOp))
    clientOps

/-- One iteration of the apply loop in `src/unnamed/part_001`
`applyOperations`.  Here the guards are `!== undefined` tests, so empty
inserts and zero-count deletes are still spliced (a no-op splice). -/
def OTv1.applyOne (result : List Char) (op : Op) : List Char :=
  match op with
  | .insert p text => jsSliceTo result p ++ text ++ jsSliceFrom result p
  | .delete p count => jsSliceTo result p ++ jsSliceFrom result (p + count)

/-- `applyOperations` from `src/unnamed/part_001` (lines 69–81): sort the
batch in place in descending position order, then splice each operation.
The second component is the sorted array the caller's batch has been
mutated into. -/
def OTv1.applyOperations (str : List Char) (ops : List Op) : List Char × List Op :=
  let sorted := sortByPosDesc ops
  (sorted.foldl OTv1.applyOne str, sorted)

/-- `generateOperations` from `src/unnamed/part_001` (lines 89–120),
textually identical to `generateOperation` in `src/utils/ot.js`. -/
def OTv1.generateOperations (oldStr newStr : List Char) : List Op :=
  OT.generateOperation oldStr newStr

/-- `generateOperation` from `src/unnamed/part_002` (lines 3–22): this
earlier iteration scans only the common prefix (its loop condition
`index < oldStr.length || index < newStr.length` together with the
`oldStr[index] !== newStr[index]` break computes exactly the longest
common prefix) and then deletes the whole tail of the old string and
inserts the whole tail of the new one — it never trims a common
suffix. -/
def OTv2.generateOperation (oldStr newStr : List Char) : List Op :=
  let index := lcp oldStr newStr
  (if index < oldStr.length then [Op.delete index (oldStr.length - index)] else []) ++
  (if index < newStr.length then [Op.insert index (newStr.drop index)] else [])

/-- Overwrite the position of an operation
(`transformedOp.position = …`). -/
def Op.setPos : Op → Int → Op
  | .insert _ s, p => .insert p s
  | .delete _ c, p => .delete p c

/-- Subtract from the count of a delete (`transformedOp.count -= …`); an
insert has no count field and is returned unchanged. -/
def Op.subCnt : Op → Int → Op
  | .delete p c, d => .delete p (c - d)
  | .insert p s, _ => .insert p s

/-- The body of the inner loop of `transformOperation` in
`src/unnamed/part_002` (lines 45–67).  Note the quirk of the source: the
conditions test the fields of the ORIGINAL operation `a`, while the
adjustments accumulate on the copy `t` (`transformedOp`). -/
def OTv2.transformStep (a : Op) (t : Op) (b : Op) : Op :=
  match a, b with
  | .insert pa _, .insert _ sb =>
      if pa ≥ b.pos then t.setPos (t.pos + sb.length) else t
  | .insert pa _, .delete pb cb =>
      if pa ≥ pb then t.setPos (t.pos - cb) else t
  | .delete pa _, .insert pb sb =>
      if pa ≥ pb then t.setPos (t.pos + sb.length) else t
  | .delete pa _, .delete pb cb =>
      if pa ≥ pb ∧ pa < pb + cb then
        ((t.subCnt (pb + cb - pa)).setPos pb)
      else if pa ≥ pb + cb then t.setPos (t.pos - cb)
      else t

/-- `transformOperation` from `src/unnamed/part_002` (lines 41–72):
batch-against-batch transformation, each client operation folded through
every committed operation. -/
def OTv2.transformOperation (opA opB : List Op) : List Op :=
  opA.map (fun a => opB.foldl (fun t b => OTv2.transformStep a t b) a)

/-! ### The live socket server (`src/server.js`, fourth variant)

The server keeps `activeNotes = { noteId: { content, revision, history,
cursors } }` and serves the socket.io events `update`, `cursor-update`
and `disconnect`.  Each handler is embedded as a pure step function on
one note's session (the handlers first look the session up and bail out
with a "Note not found" error when absent; the per-session state machine
below is the body that runs on a resident session). -/

/-- The in-memory session of one note:
`{ content: '', revision: 0, history: [], cursors: {} }`. -/
structure NoteSession : Type where
  content : List Char
  revision : Nat
  history : List Op
  cursors : String → Option Int

/-- Messages the handlers emit over the socket. -/
inductive Event : Type
  | errorMsg (msg : String)
  | update (operations : List Op) (revision : Nat)
  | cursorUpdate (socketId : String) (cursorPosition : Int)
  | cursorRemove (socketId : String)
  deriving DecidableEq

/-- Outcome of one handler invocation: the new session state, what was
emitted to the originating socket, what was broadcast to the rest of the
room, and whether a Supabase persistence write was started. -/
structure StepResult : Type where
  note : NoteSession
  senderEvents : List Event
  roomEvents : List Event
  persist : Bool

/-- The `update` handler of `src/server.js` (fourth variant, lines
503–563).  `revision` is what the client based its batch on.  The stale
check rejects `revision > note.revision`; otherwise the concurrent suffix
of the history is `note.history.slice(revision)`, the incoming batch is
transformed against it, applied (the apply call sorts the transformed
batch in place, and that sorted array is what the code then pushes onto
the history and broadcasts), the revision grows by the number of
operations in the batch, and the sender's cursor is recorded.  The JS
`try`/`catch` around the apply can only fire on a thrown exception;
`applyOperations` never throws (JS `slice` clamps every index), so the
model has no catch branch. -/
def updateStep (note : NoteSession) (socketId : String) (operations : List Op)
    (revision : Int) (cursorPosition : Int) : StepResult :=
  if (note.revision : Int) < revision then
    { note := note
      senderEvents := [Event.errorMsg "Invalid revision number."]
      roomEvents := []
      persist := false }
  else
    let concurrentOps := jsSliceFrom note.history revision
    let transformedOps := OTv1.transformOperations operations concurrentOps
    let applied := OTv1.applyOperations note.content transformedOps
    let newRevision := note.revision + applied.2.length
    { note :=
        { content := applied.1
          revision := newRevision
          history := note.history ++ applied.2
          cursors := fun k => if k = socketId then some cursorPosition else note.cursors k }
      senderEvents := []
      roomEvents := [Event.update applied.2 newRevision,
                     Event.cursorUpdate socketId cursorPosition]
      persist := true }

/-- The `cursor-update` handler of `src/server.js` (lines 565–573):
record the sender's cursor position and broadcast it; nothing else is
touched and nothing is persisted. -/
def cursorStep (note : NoteSession) (socketId : String) (cursorPosition : Int) : StepResult :=
  { note := { note with
      cursors := fun k => if k = socketId then some cursorPosition else note.cursors k }
    senderEvents := []
    roomEvents := [Event.cursorUpdate socketId cursorPosition]
    persist := false }

/-- The `disconnect` handler of `src/server.js` (lines 575–585), for one
note of the `for (const noteId in activeNotes)` loop.  The guard is the
JS truthiness test `if (activeNotes[noteId].cursors[socket.id])`: an
absent entry is `undefined` (falsy) and a cursor at position 0 is also
falsy, so only entries with a non-zero position are deleted and
broadcast. -/
def disconnectStep (note : NoteSession) (socketId : String) : NoteSession × List Event :=
  if (note.cursors socketId).getD 0 ≠ 0 then
    ({ note with cursors := fun k => if k = socketId then none else note.cursors k },
     [Event.cursorRemove socketId])
  else
    (note, [])

/-- A concrete resident session used by witnesses: one participant at
cursor position 3, content "a", fresh revision. -/
def sampleNote : NoteSession :=
  { content := ['a']
    revision := 0
    history := []
    cursors := fun k => if k = "s2" then some 3 else none }

/-- A concrete fresh session with content "ab" and no participants. -/
def noteAB : NoteSession :=
  { content := ['a', 'b']
    revision := 0
    history := []
    cursors := fun _ => none }

/-- A concrete fresh session with content "abc" and no participants. -/
def noteABC : NoteSession :=
  { content := ['a', 'b', 'c']
    revision := 0
    history := []
    cursors := fun _ => none }

/-- A concrete session whose only participant "s1" has its cursor at
position 0 (the start of the document). -/
def zeroCursorNote : NoteSession :=
  { content := []
    revision := 0
    history := []
    cursors := fun k => if k = "s1" then some 0 else none }

/-! ### Helper lemmas about the longest common prefix and JS slicing -/

theorem lcp_le_left : ∀ as bs : List Char, lcp as bs ≤ as.length
  | [], _ => by simp [lcp]
  | _ :: _, [] => by simp [lcp]
  | a :: as, b :: bs => by
    by_cases h : a = b
    · simpa [lcp, h] using lcp_le_left as bs
    · simp [lcp, h]

theorem lcp_le_right : ∀ as bs : List Char, lcp as bs ≤ bs.length
  | [], _ => by simp [lcp]
  | _ :: _, [] => by simp [lcp]
  | a :: as, b :: bs => by
    by_cases h : a = b
    · simpa [lcp, h] using lcp_le_right as bs
    · simp [lcp, h]

theorem take_lcp_eq : ∀ as bs : List Char, as.take (lcp as bs) = bs.take (lcp as bs)
  | [], _ => by simp [lcp]
  | _ :: _, [] => by simp [lcp]
  | a :: as, b :: bs => by
    by_cases h : a = b
    · simp [lcp, h, take_lcp_eq as bs]
    · simp [lcp, h]

theorem drop_length_sub (l : List Char) (k : Nat) :
    l.drop (l.length - k) = (l.reverse.take k).reverse := by
  rw [← List.rtake_eq_reverse_take_reverse]; rfl

theorem commonEnd_suffix_eq (oldStr newStr : List Char) :
    (oldStr.drop (OT.commonStart oldStr newStr)).drop
      ((oldStr.drop (OT.commonStart oldStr newStr)).length - OT.commonEnd oldStr newStr)
    = (newStr.drop (OT.commonStart oldStr newStr)).drop
      ((newStr.drop (OT.commonStart oldStr newStr)).length - OT.commonEnd oldStr newStr) := by
  rw [drop_length_sub, drop_length_sub, OT.commonEnd, take_lcp_eq]

theorem newMiddle_eq_take (oldStr newStr : List Char) :
    OT.newMiddle oldStr newStr
      = (newStr.drop (OT.commonStart oldStr newStr)).take
          ((newStr.drop (OT.commonStart oldStr newStr)).length - OT.commonEnd oldStr newStr) := by
  rw [OT.newMiddle, List.drop_take, List.length_drop, Nat.sub_right_comm]

theorem oldMiddle_eq_take (oldStr newStr : List Char) :
    OT.oldMiddle oldStr newStr
      = (oldStr.drop (OT.commonStart oldStr newStr)).take
          ((oldStr.drop (OT.commonStart oldStr newStr)).length - OT.commonEnd oldStr newStr) := by
  rw [OT.oldMiddle, List.drop_take, List.length_drop, Nat.sub_right_comm]

theorem oldMiddle_length (oldStr newStr : List Char) :
    (OT.oldMiddle oldStr newStr).length
      = (oldStr.drop (OT.commonStart oldStr newStr)).length - OT.commonEnd oldStr newStr := by
  rw [oldMiddle_eq_take, List.length_take, min_eq_left (Nat.sub_le _ _)]

/-- The split of the new string induced by the diff scan: common prefix,
new middle, common suffix (the latter written as a tail of the old
string, which `commonEnd_suffix_eq` makes legitimate). -/
theorem genop_decomp (oldStr newStr : List Char) :
    newStr = oldStr.take (OT.commonStart oldStr newStr) ++ OT.newMiddle oldStr newStr
      ++ oldStr.drop (OT.commonStart oldStr newStr + (OT.oldMiddle oldStr newStr).length) := by
  conv_lhs => rw [← List.take_append_drop (OT.commonStart oldStr newStr) newStr]
  rw [List.append_assoc]
  congr 1
  · exact (take_lcp_eq oldStr newStr).symm
  · conv_lhs => rw [← List.take_append_drop
      ((newStr.drop (OT.commonStart oldStr newStr)).length - OT.commonEnd oldStr newStr)
      (newStr.drop (OT.commonStart oldStr newStr))]
    congr 1
    · exact (newMiddle_eq_take oldStr newStr).symm
    · rw [← commonEnd_suffix_eq, ← oldMiddle_length, List.drop_drop]

/-- The corresponding split of the old string. -/
theorem genop_decomp_old (oldStr newStr : List Char) :
    oldStr = oldStr.take (OT.commonStart oldStr newStr) ++ OT.oldMiddle oldStr newStr
      ++ (oldStr.drop (OT.commonStart oldStr newStr)).drop
          ((oldStr.drop (OT.commonStart oldStr newStr)).length - OT.commonEnd oldStr newStr) := by
  conv_lhs => rw [← List.take_append_drop (OT.commonStart oldStr newStr) oldStr]
  rw [List.append_assoc]
  congr 1
  conv_lhs => rw [← List.take_append_drop
    ((oldStr.drop (OT.commonStart oldStr newStr)).length - OT.commonEnd oldStr newStr)
    (oldStr.drop (OT.commonStart oldStr newStr))]
  congr 1
  exact (oldMiddle_eq_take oldStr newStr).symm

theorem jsIndex_natCast (len n : Nat) : jsIndex len n = min n len := by
  simp [jsIndex]

theorem jsSliceTo_natCast (l : List Char) (n : Nat) : jsSliceTo l (n : Int) = l.take n := by
  rw [jsSliceTo, jsIndex_natCast]
  rcases le_total n l.length with h | h
  · rw [min_eq_left h]
  · rw [min_eq_right h, List.take_length, List.take_of_length_le h]

theorem jsSliceFrom_natCast (l : List Char) (n : Nat) : jsSliceFrom l (n : Int) = l.drop n := by
  rw [jsSliceFrom, jsIndex_natCast]
  rcases le_total n l.length with h | h
  · rw [min_eq_left h]
  · rw [min_eq_right h, List.drop_length, List.drop_eq_nil_of_le h]

theorem applyOne_insert_natCast (str text : List Char) (p : Nat) :
    OT.applyOne str (Op.insert (p : Int) text)
      = if text.length > 0 then str.take p ++ text ++ str.drop p else str := by
  rw [OT.applyOne, jsSliceTo_natCast, jsSliceFrom_natCast]

theorem applyOne_delete_natCast (str : List Char) (p d : Nat) :
    OT.applyOne str (Op.delete (p : Int) (d : Int))
      = if (d : Int) ≠ 0 then str.take p ++ str.drop (p + d) else str := by
  rw [OT.applyOne]
  by_cases h : (d : Int) ≠ 0
  · rw [if_pos h, if_pos h, jsSliceTo_natCast, ← Nat.cast_add, jsSliceFrom_natCast]
  · rw [if_neg h, if_neg h]

/-! ### Claim theorems -/

/-- Claim C2 (confirmed).  Round-trip of diff and apply: for every pair of
strings `content` and `content2` — including empty strings and full
replacement — applying the batch `generateOperation content content2`
(the diff of `src/utils/ot.js`) to `content` with `applyOperation` yields
exactly `content2`. -/
theorem c2_diff_apply_roundtrip (content content2 : List Char) :
    (OT.applyOperation content (OT.generateOperation content content2)).1 = content2 := by
  have hcs : OT.commonStart content content2 ≤ content.length := lcp_le_left content content2
  have htakelen : (content.take (OT.commonStart content content2)).length
      = OT.commonStart content content2 := by
    rw [List.length_take, min_eq_left hcs]
  by_cases hD : (OT.oldMiddle content content2).length > 0 <;>
    by_cases hI : (OT.newMiddle content content2).length > 0
  · -- a deletion followed by an insertion
    rw [OT.applyOperation, OT.generateOperation, if_pos hD, if_pos hI]
    have hsort : sortByPosDesc
        [Op.delete (OT.commonStart content content2) (OT.oldMiddle content content2).length,
         Op.insert (OT.commonStart content content2) (OT.newMiddle content content2)]
        = [Op.delete (OT.commonStart content content2) (OT.oldMiddle content content2).length,
           Op.insert (OT.commonStart content content2) (OT.newMiddle content content2)] := by
      simp [sortByPosDesc, List.insertionSort, List.orderedInsert, posDescOrder, Op.pos]
    simp only [List.singleton_append, hsort, List.foldl_cons, List.foldl_nil]
    rw [applyOne_delete_natCast, if_pos (by exact_mod_cast Nat.pos_iff_ne_zero.mp hD),
      applyOne_insert_natCast, if_pos hI,
      List.take_left' htakelen, List.drop_left' htakelen]
    exact (genop_decomp content content2).symm
  · -- a deletion only
    rw [OT.applyOperation, OT.generateOperation, if_pos hD, if_neg hI]
    have hnil : OT.newMiddle content content2 = [] :=
      List.length_eq_zero.mp (Nat.eq_zero_of_not_pos hI)
    simp only [List.append_nil, sortByPosDesc, List.insertionSort, List.orderedInsert,
      List.foldl_cons, List.foldl_nil]
    rw [applyOne_delete_natCast, if_pos (by exact_mod_cast Nat.pos_iff_ne_zero.mp hD)]
    have hdec := genop_decomp content content2
    rw [hnil] at hdec
    simpa using hdec.symm
  · -- an insertion only
    rw [OT.applyOperation, OT.generateOperation, if_neg hD, if_pos hI]
    have hz : (OT.oldMiddle content content2).length = 0 := Nat.eq_zero_of_not_pos hD
    simp only [List.nil_append, sortByPosDesc, List.insertionSort, List.orderedInsert,
      List.foldl_cons, List.foldl_nil]
    rw [applyOne_insert_natCast, if_pos hI]
    have hdec := genop_decomp content content2
    rw [hz, Nat.add_zero] at hdec
    exact hdec.symm
  · -- equal strings, no operation at all
    rw [OT.applyOperation, OT.generateOperation, if_neg hD, if_neg hI]
    have hz : (OT.oldMiddle content content2).length = 0 := Nat.eq_zero_of_not_pos hD
    have hnil : OT.newMiddle content content2 = [] :=
      List.length_eq_zero.mp (Nat.eq_zero_of_not_pos hI)
    simp only [List.append_nil, sortByPosDesc, List.insertionSort, List.foldl_nil]
    have hdec := genop_decomp content content2
    rw [hz, Nat.add_zero, hnil] at hdec
    simpa [List.take_append_drop] using hdec.symm

/-- Claim C1 (code bug).  Convergence fails for batches generated by the
diff against the same content: with content "ab", batch A = diff("ab","")
= [delete 2 @0] and batch B = diff("ab","aXb") = [insert "X" @1], applying
A and then the transform of B against A yields "X", while applying B and
then the transform of A against B yields "b".  The committed delete spans
the insertion point of the concurrent insert; `transformOperation` in
part_001 shifts the insert into the deleted range instead of splitting or
extending the delete, so the two orders do not converge. -/
theorem c1_convergence_fails_on_diff_batches :
    OTv1.generateOperations ['a', 'b'] [] = [Op.delete 0 2] ∧
    OTv1.generateOperations ['a', 'b'] ['a', 'X', 'b'] = [Op.insert 1 ['X']] ∧
    (OTv1.applyOperations ((OTv1.applyOperations ['a', 'b'] [Op.delete 0 2]).1)
      (OTv1.transformOperations [Op.insert 1 ['X']] [Op.delete 0 2])).1 = ['X'] ∧
    (OTv1.applyOperations ((OTv1.applyOperations ['a', 'b'] [Op.insert 1 ['X']]).1)
      (OTv1.transformOperations [Op.delete 0 2] [Op.insert 1 ['X']])).1 = ['b'] ∧
    (['X'] : List Char) ≠ ['b'] := by decide

/-- Claim C3, counterexample.  One single successful `update` carrying the
one batch diff("ab","Xb") = [delete 1 @0, insert "X" @0] leaves the fresh
session at revision 2, not 1: the handler executes
`note.revision += transformedOps.length`, counting operations, not
batches. -/
theorem c3_two_op_batch_counterexample :
    OT.generateOperation ['a', 'b'] ['X', 'b'] = [Op.delete 0 1, Op.insert 0 ['X']] ∧
    (updateStep noteAB "s1" [Op.delete 0 1, Op.insert 0 ['X']] 0 0).note.revision = 2 ∧
    (2 : Nat) ≠ 1 := by decide

/-- Claim C3, amended.  The revision counter counts individual applied
operations, not batches: every `update` preserves the invariant that the
current revision equals the length of the operation history, and a
successful update grows both by the number of operations in the
transformed batch (so revision equals N after N single-operation
batches, but not in general). -/
theorem c3_revision_counts_operations (note : NoteSession) (socketId : String)
    (operations : List Op) (revision cursorPosition : Int)
    (h : note.revision = note.history.length) :
    (updateStep note socketId operations revision cursorPosition).note.revision
      = (updateStep note socketId operations revision cursorPosition).note.history.length := by
  rw [updateStep]
  by_cases hs : (note.revision : Int) < revision
  · rw [if_pos hs]; exact h
  · rw [if_neg hs]; simp [h]

/-- Witness for `c3_revision_counts_operations` at a concrete fresh
session. -/
theorem c3_revision_witness :
    (updateStep noteAB "s1" [Op.insert 0 ['x']] 0 0).note.revision
      = (updateStep noteAB "s1" [Op.insert 0 ['x']] 0 0).note.history.length :=
  c3_revision_counts_operations noteAB "s1" [Op.insert 0 ['x']] 0 0 (by decide)

/-- Claim C4 (confirmed).  An `update` whose based-on revision is strictly
greater than the session's current revision is rejected with an error to
the originator and the whole step is a no-op: the session (content,
revision, history, presence map) is returned unchanged, nothing is
broadcast and nothing is persisted. -/
theorem c4_stale_future_revision_rejected (note : NoteSession) (socketId : String)
    (operations : List Op) (revision cursorPosition : Int)
    (h : (note.revision : Int) < revision) :
    updateStep note socketId operations revision cursorPosition
      = { note := note
          senderEvents := [Event.errorMsg "Invalid revision number."]
          roomEvents := []
          persist := false } := by
  rw [updateStep, if_pos h]

/-- Witness for `c4_stale_future_revision_rejected`: a client claiming
revision 1 against a fresh session. -/
theorem c4_stale_witness :
    updateStep sampleNote "s1" [Op.insert 0 ['x']] 1 0
      = { note := sampleNote
          senderEvents := [Event.errorMsg "Invalid revision number."]
          roomEvents := []
          persist := false } :=
  c4_stale_future_revision_rejected sampleNote "s1" [Op.insert 0 ['x']] 1 0 (by decide)

/-- Claim C5, counterexample.  The part_002 `transformOperation` violates
both clamping invariants on well-formed inputs: an insert at position 1
transformed against a committed delete of 5 at position 0 ends at
position −4 (the full count is subtracted, with no `min` clamp), and a
delete of 1 at position 2 transformed against a committed delete of 5 at
position 0 ends with count −2 (the overlap exceeds the remaining
count). -/
theorem c5_v2_negative_counterexample :
    (0 : Int) ≤ (Op.insert 1 ['x']).pos ∧ (0 : Int) ≤ (Op.insert 1 ['x']).cnt ∧
    (0 : Int) ≤ (Op.delete 0 5).pos ∧ (0 : Int) ≤ (Op.delete 0 5).cnt ∧
    OTv2.transformOperation [Op.insert 1 ['x']] [Op.delete 0 5] = [Op.insert (-4) ['x']] ∧
    (Op.insert (-4) ['x']).pos < 0 ∧
    OTv2.transformOperation [Op.delete 2 1] [Op.delete 0 5] = [Op.delete 0 (-2)] ∧
    (Op.delete 0 (-2)).cnt < 0 := by decide

/-- Claim C5, amended.  The clamping invariants do hold for the part_001
`transformOperation`, the one the live server imports: for operations
with non-negative position and count, the transformed operation has
non-negative position (shifts back are clamped by
`Math.min(b.count, a.position - b.position)`) and non-negative count
(the overlapping-delete case takes `Math.max(0, …)`). -/
theorem c5_transform_clamping_v1 (a b : Op)
    (hap : 0 ≤ a.pos) (hac : 0 ≤ a.cnt) (hbp : 0 ≤ b.pos) (hbc : 0 ≤ b.cnt) :
    0 ≤ (OTv1.transformOperation a b).pos ∧ 0 ≤ (OTv1.transformOperation a b).cnt := by
  cases a <;> cases b <;>
    simp only [Op.pos, Op.cnt] at hap hac hbp hbc <;>
    simp only [OTv1.transformOperation] <;>
    split_ifs <;>
    refine ⟨?_, ?_⟩ <;>
    simp only [Op.pos, Op.cnt] <;>
    omega

/-- Witness for `c5_transform_clamping_v1`: an insert just past a
committed overlapping delete. -/
theorem c5_clamping_witness :
    0 ≤ (OTv1.transformOperation (Op.insert 1 ['x']) (Op.delete 0 5)).pos ∧
    0 ≤ (OTv1.transformOperation (Op.insert 1 ['x']) (Op.delete 0 5)).cnt :=
  c5_transform_clamping_v1 (Op.insert 1 ['x']) (Op.delete 0 5)
    (by decide) (by decide) (by decide) (by decide)

/-- Claim C6, counterexample.  The part_002 `generateOperation` does not
trim the common suffix: diffing "ab" against "cb" (shared suffix "b")
yields [delete 2 @0, insert "cb" @0], whereas the middle segments left
after removing the longest common prefix (empty) and longest common
suffix ("b") are "a" and "c" — the claim would require
[delete 1 @0, insert "c" @0]. -/
theorem c6_v2_no_suffix_counterexample :
    OTv2.generateOperation ['a', 'b'] ['c', 'b'] = [Op.delete 0 2, Op.insert 0 ['c', 'b']] ∧
    OT.oldMiddle ['a', 'b'] ['c', 'b'] = ['a'] ∧
    OT.newMiddle ['a', 'b'] ['c', 'b'] = ['c'] ∧
    ([Op.delete 0 2, Op.insert 0 ['c', 'b']] : List Op)
      ≠ [Op.delete 0 1, Op.insert 0 ['c']] := by decide

/-- Claim C6, amended.  The shape property holds for `generateOperation`
of `src/utils/ot.js`: both strings split as common prefix ++ middle ++
common suffix, where the prefix has maximal length `lcp` and the suffix is
the longest common suffix of the post-prefix remainders (the backward scan
is bounded so it never overlaps the prefix); the diff is exactly one
optional deletion (the old middle) followed by one optional insertion (the
new middle), both positioned at the prefix length.  Determinism is
immediate: the diff is a function of the two strings. -/
theorem c6_diff_shape (oldStr newStr : List Char) :
    ∃ P D I S : List Char,
      oldStr = P ++ D ++ S ∧
      newStr = P ++ I ++ S ∧
      P.length = lcp oldStr newStr ∧
      S.length = lcp ((oldStr.drop P.length).reverse) ((newStr.drop P.length).reverse) ∧
      OT.generateOperation oldStr newStr
        = (if D.length > 0 then [Op.delete (P.length : Int) (D.length : Int)] else []) ++
          (if I.length > 0 then [Op.insert (P.length : Int) I] else []) := by
  have hcs : OT.commonStart oldStr newStr ≤ oldStr.length := lcp_le_left oldStr newStr
  have htakelen : (oldStr.take (OT.commonStart oldStr newStr)).length
      = OT.commonStart oldStr newStr := by
    rw [List.length_take, min_eq_left hcs]
  have hce : OT.commonEnd oldStr newStr
      ≤ (oldStr.drop (OT.commonStart oldStr newStr)).length := by
    have := lcp_le_left ((oldStr.drop (OT.commonStart oldStr newStr)).reverse)
      ((newStr.drop (OT.commonStart oldStr newStr)).reverse)
    rwa [List.length_reverse] at this
  refine ⟨oldStr.take (OT.commonStart oldStr newStr),
    OT.oldMiddle oldStr newStr,
    OT.newMiddle oldStr newStr,
    (oldStr.drop (OT.commonStart oldStr newStr)).drop
      ((oldStr.drop (OT.commonStart oldStr newStr)).length - OT.commonEnd oldStr newStr),
    genop_decomp_old oldStr newStr, ?_, htakelen, ?_, ?_⟩
  · have hdec := genop_decomp oldStr newStr
    rw [← List.drop_drop, oldMiddle_length] at hdec
    exact hdec
  · rw [htakelen]
    have hrfl : lcp ((oldStr.drop (OT.commonStart oldStr newStr)).reverse)
        ((newStr.drop (OT.commonStart oldStr newStr)).reverse)
        = OT.commonEnd oldStr newStr := rfl
    rw [hrfl, List.length_drop]
    omega
  · rw [OT.generateOperation, htakelen]

/-- Claim C7, counterexample.  There is no corrupt-operation guard: an
update whose (un-transformed and untransformable — the history is empty)
operation position 10 lies outside [0, 3] = [0, len("abc")] is not
rejected; JS `slice` clamps the position to the end, the insert lands at
the end of the buffer, the revision advances, nothing is sent to the
originator, and the change is persisted. -/
theorem c7_out_of_range_applied_counterexample :
    OTv1.transformOperations [Op.insert 10 ['X']] (jsSliceFrom noteABC.history 0)
      = [Op.insert 10 ['X']] ∧
    ((10 : Int) > (noteABC.content.length : Int)) ∧
    (updateStep noteABC "s1" [Op.insert 10 ['X']] 0 0).note.content
      = ['a', 'b', 'c', 'X'] ∧
    (updateStep noteABC "s1" [Op.insert 10 ['X']] 0 0).note.content ≠ noteABC.content ∧
    (updateStep noteABC "s1" [Op.insert 10 ['X']] 0 0).note.revision = 1 ∧
    (updateStep noteABC "s1" [Op.insert 10 ['X']] 0 0).senderEvents = [] ∧
    (updateStep noteABC "s1" [Op.insert 10 ['X']] 0 0).persist = true := by decide

/-- Claim C7, amended.  The update path contains no position-range check
at all: the only rejection on a resident session is the stale-revision
check, and every non-stale update succeeds — no error is emitted to the
originator and the session is marked for persistence — whatever the
operation positions are; out-of-range positions are silently clamped by
the JS slice semantics inside apply. -/
theorem c7_no_corrupt_operation_guard (note : NoteSession) (socketId : String)
    (operations : List Op) (revision cursorPosition : Int)
    (h : ¬ (note.revision : Int) < revision) :
    (updateStep note socketId operations revision cursorPosition).senderEvents = [] ∧
    (updateStep note socketId operations revision cursorPosition).persist = true := by
  rw [updateStep, if_neg h]
  exact ⟨rfl, rfl⟩

/-- Witness for `c7_no_corrupt_operation_guard`: the out-of-range insert
of the counterexample input is accepted. -/
theorem c7_witness :
    (updateStep noteABC "s2" [Op.insert 10 ['X']] 0 0).senderEvents = [] ∧
    (updateStep noteABC "s2" [Op.insert 10 ['X']] 0 0).persist = true :=
  c7_no_corrupt_operation_guard noteABC "s2" [Op.insert 10 ['X']] 0 0 (by decide)

/-- Claim C8 (code bug).  A participant whose cursor sits at position 0 is
NOT removed from the presence map on disconnect, and no removal is
broadcast: the guard `if (activeNotes[noteId].cursors[socket.id])` is a JS
truthiness test and the number 0 is falsy, contradicting the handler's own
comment ("Remove the user's cursor positions from all notes"). -/
theorem c8_disconnect_keeps_zero_cursor :
    zeroCursorNote.cursors "s1" = some 0 ∧
    (disconnectStep zeroCursorNote "s1").1.cursors "s1" = some 0 ∧
    (disconnectStep zeroCursorNote "s1").2 = [] := by decide

/-- Claim C9 (confirmed).  The cursor handler updates exactly the sending
participant's presence entry and broadcasts it: content, revision and
history are unchanged, every other participant's presence entry is
unchanged, and nothing is persisted. -/
theorem c9_cursor_frame_condition (note : NoteSession) (socketId : String)
    (cursorPosition : Int) :
    (cursorStep note socketId cursorPosition).note.content = note.content ∧
    (cursorStep note socketId cursorPosition).note.revision = note.revision ∧
    (cursorStep note socketId cursorPosition).note.history = note.history ∧
    (cursorStep note socketId cursorPosition).note.cursors socketId = some cursorPosition ∧
    (∀ k : String, k ≠ socketId →
      (cursorStep note socketId cursorPosition).note.cursors k = note.cursors k) ∧
    (cursorStep note socketId cursorPosition).roomEvents
      = [Event.cursorUpdate socketId cursorPosition] ∧
    (cursorStep note socketId cursorPosition).persist = false := by
  refine ⟨rfl, rfl, rfl, ?_, ?_, rfl, rfl⟩
  · simp [cursorStep]
  · intro k hk
    simp [cursorStep, hk]

/-- Witness for `c9_cursor_frame_condition`: participant "s1" moves its
cursor; participant "s2" keeps its entry. -/
theorem c9_cursor_witness :
    (cursorStep sampleNote "s1" 5).note.content = sampleNote.content ∧
    (cursorStep sampleNote "s1" 5).note.cursors "s2" = sampleNote.cursors "s2" ∧
    (cursorStep sampleNote "s1" 5).persist = false :=
  ⟨(c9_cursor_frame_condition sampleNote "s1" 5).1,
   (c9_cursor_frame_condition sampleNote "s1" 5).2.2.2.2.1 "s2" (by decide),
   (c9_cursor_frame_condition sampleNote "s1" 5).2.2.2.2.2.2⟩

/-- Claim C10 (confirmed).  Apply sorts the caller's batch in place: on a
successful update the batch actually appended to the history and carried
by the broadcast is the second component of `applyOperations` — a
descending-position-sorted permutation of the transformed batch, not
necessarily in the order the client sent. -/
theorem c10_update_appends_sorted_batch (note : NoteSession) (socketId : String)
    (operations : List Op) (revision cursorPosition : Int)
    (h : ¬ (note.revision : Int) < revision) :
    ∃ sortedOps : List Op,
      sortedOps.Perm
        (OTv1.transformOperations operations (jsSliceFrom note.history revision)) ∧
      List.Sorted posDescOrder sortedOps ∧
      (OTv1.applyOperations note.content
        (OTv1.transformOperations operations (jsSliceFrom note.history revision))).2
        = sortedOps ∧
      (updateStep note socketId operations revision cursorPosition).note.history
        = note.history ++ sortedOps ∧
      (updateStep note socketId operations revision cursorPosition).roomEvents
        = [Event.update sortedOps
            ((updateStep note socketId operations revision cursorPosition).note.revision),
           Event.cursorUpdate socketId cursorPosition] := by
  refine ⟨sortByPosDesc
      (OTv1.transformOperations operations (jsSliceFrom note.history revision)),
    List.perm_insertionSort posDescOrder _,
    List.sorted_insertionSort posDescOrder _, rfl, ?_, ?_⟩
  · rw [updateStep, if_neg h]
    rfl
  · rw [updateStep, if_neg h]
    rfl

/-- Witness for `c10_update_appends_sorted_batch`: a client batch in
ascending position order is stored and broadcast in descending order. -/
theorem c10_sorted_witness :
    ∃ sortedOps : List Op,
      sortedOps.Perm
        (OTv1.transformOperations [Op.insert 0 ['x'], Op.insert 2 ['y']]
          (jsSliceFrom noteABC.history 0)) ∧
      List.Sorted posDescOrder sortedOps ∧
      (OTv1.applyOperations noteABC.content
        (OTv1.transformOperations [Op.insert 0 ['x'], Op.insert 2 ['y']]
          (jsSliceFrom noteABC.history 0))).2
        = sortedOps ∧
      (updateStep noteABC "s1" [Op.insert 0 ['x'], Op.insert 2 ['y']] 0 0).note.history
        = noteABC.history ++ sortedOps ∧
      (updateStep noteABC "s1" [Op.insert 0 ['x'], Op.insert 2 ['y']] 0 0).roomEvents
        = [Event.update sortedOps
            ((updateStep noteABC "s1" [Op.insert 0 ['x'], Op.insert 2 ['y']] 0 0).note.revision),
           Event.cursorUpdate "s1" 0] :=
  c10_update_appends_sorted_batch noteABC "s1" [Op.insert 0 ['x'], Op.insert 2 ['y']] 0 0
    (by decide)
